import Mathlib

/-!
Verification development for the SenseBridge realtime session manager
(`src/hooks/useGeminiLive.ts`, `src/App.tsx`, `src/components/ControlPanel.tsx`).

The stateful hook is embedded shallowly: the mutable refs of `useGeminiLive`
become the fields of `HookState`, the `onmessage` callback becomes a pure
step function returning the new state together with the chunks it scheduled
and stopped, and `cleanup` / `connect` / `sendMessage` become state
transformers.  Fallible browser calls are modelled with `Except`.  The audio
codec utilities (`src/utils/audio.ts`) are not part of the sources; they are
modelled from the specification's §4.2 where marked.
-/

namespace SenseBridge

/-! ## Audio codec utilities (spec §4.2) -/

/-- Modelled from the spec: the base64 alphabet of the transport-safe text
encoding used by `encodePcm` (`createPcmBlob`) in the missing
`src/utils/audio.ts`. -/
def b64Alphabet : List Char :=
  ['A', 'B', 'C', 'D', 'E', 'F', 'G', 'H', 'I', 'J', 'K', 'L', 'M',
   'N', 'O', 'P', 'Q', 'R', 'S', 'T', 'U', 'V', 'W', 'X', 'Y', 'Z',
   'a', 'b', 'c', 'd', 'e', 'f', 'g', 'h', 'i', 'j', 'k', 'l', 'm',
   'n', 'o', 'p', 'q', 'r', 's', 't', 'u', 'v', 'w', 'x', 'y', 'z',
   '0', '1', '2', '3', '4', '5', '6', '7', '8', '9', '+', '/']

/-- Character of a six-bit group. -/
def b64Char (n : ℕ) : Char := b64Alphabet.getD n '='

/-- Six-bit value of a base64 character. -/
def b64Val (c : Char) : ℕ := b64Alphabet.indexOf c

/-- Modelled from the spec: base64 encoding of a byte sequence (the
transport-safe text encoding of §4.2 and §6). -/
def base64Encode : List ℕ → List Char
  | [] => []
  | [b0] => [b64Char (b0 / 4), b64Char (b0 % 4 * 16), '=', '=']
  | [b0, b1] =>
      [b64Char (b0 / 4), b64Char (b0 % 4 * 16 + b1 / 16), b64Char (b1 % 16 * 4), '=']
  | b0 :: b1 :: b2 :: rest =>
      b64Char (b0 / 4) :: b64Char (b0 % 4 * 16 + b1 / 16) ::
      b64Char (b1 % 16 * 4 + b2 / 64) :: b64Char (b2 % 64) :: base64Encode rest

/-- Modelled from the spec: base64 decoding back to the byte sequence
(`base64ToUint8Array` of the missing `src/utils/audio.ts`). -/
def base64Decode : List Char → List ℕ
  | c0 :: c1 :: c2 :: c3 :: rest =>
      if c2 = '=' then [b64Val c0 * 4 + b64Val c1 / 16]
      else if c3 = '=' then
        [b64Val c0 * 4 + b64Val c1 / 16, b64Val c1 % 16 * 16 + b64Val c2 / 4]
      else
        (b64Val c0 * 4 + b64Val c1 / 16) :: (b64Val c1 % 16 * 16 + b64Val c2 / 4) ::
        (b64Val c2 % 4 * 64 + b64Val c3) :: base64Decode rest
  | _ => []

/-- Modelled from the spec: quantization of one normalized sample to a signed
16-bit integer (clamped at the extremes). -/
def encSample (s : ℚ) : ℤ := max (-32768) (min 32767 ⌊s * 32768⌋)

/-- Little-endian byte pair of a 16-bit signed integer (two's complement). -/
def int16ToBytes (n : ℤ) : List ℕ :=
  [(n % 65536).toNat % 256, (n % 65536).toNat / 256]

/-- The 16-bit signed integer read from a little-endian byte pair. -/
def bytesToInt16 (b0 b1 : ℕ) : ℤ :=
  if b0 + 256 * b1 < 32768 then (b0 + 256 * b1 : ℤ) else (b0 + 256 * b1 : ℤ) - 65536

/-- Modelled from the spec: a normalized sample buffer written as 16-bit
signed little-endian PCM bytes. -/
def samplesToBytes : List ℚ → List ℕ
  | [] => []
  | s :: rest => int16ToBytes (encSample s) ++ samplesToBytes rest

/-- Modelled from the spec: 16-bit signed little-endian PCM bytes read back
as normalized samples. -/
def bytesToSamples : List ℕ → List ℚ
  | b0 :: b1 :: rest => (bytesToInt16 b0 b1 : ℚ) / 32768 :: bytesToSamples rest
  | _ => []

/-- Modelled from the spec: `encodePcm` (`createPcmBlob`) — normalized
samples to 16-bit signed little-endian PCM, then to the transport text
encoding. -/
def encodePcm (xs : List ℚ) : List Char := base64Encode (samplesToBytes xs)

/-- Modelled from the spec: `decodePcm` — the transport text back to bytes,
then to normalized samples. -/
def decodePcm (cs : List Char) : List ℚ := bytesToSamples (base64Decode cs)

/-- Modelled from the spec: `decodeAudioData` fails with a DecodeError on
malformed or truncated input (odd byte length, empty input), and otherwise
interprets the bytes as 16-bit signed PCM. -/
def decodeAudioData (bytes : List ℕ) : Except Unit (List ℚ) :=
  if bytes.length = 0 ∨ bytes.length % 2 = 1 then Except.error ()
  else Except.ok (bytesToSamples bytes)

/-- Duration in seconds of a decoded buffer at the fixed output sample rate
of 24000 Hz (`OUTPUT_SAMPLE_RATE`). -/
def audioDuration (samples : List ℚ) : ℚ := (samples.length : ℚ) / 24000

/-- Whether a decode succeeded. -/
def isOkB : Except Unit (List ℚ) → Bool
  | Except.ok _ => true
  | Except.error _ => false

/-! ## Session manager state (`useGeminiLive`) -/

/-- One hardware capture track of the media stream. -/
structure Track where
  stopped : Bool
deriving DecidableEq

/-- One scheduled playback chunk (an `AudioBufferSourceNode` with its start
offset and buffer duration). -/
structure Chunk where
  start : ℚ
  duration : ℚ
deriving DecidableEq

/-- An inbound server message: the optional inline audio payload (bytes, the
base64 layer being a bijection) and the `interrupted` flag. -/
structure Message where
  audio : Option (List ℕ)
  interrupted : Bool
deriving DecidableEq

/-- The mutable refs of the `useGeminiLive` hook. -/
structure HookState where
  inputCtx : Option Unit
  outputCtx : Option Unit
  mediaStream : Option Unit
  tracks : List Track
  nextStartTime : ℚ
  sources : List Chunk
  session : Option Unit
  videoInterval : Option ℕ
  isConnected : Bool
  volume : ℚ
deriving DecidableEq

/-- The hook's initial state: every ref null, no chunks, cursor at zero. -/
def initState : HookState :=
  { inputCtx := none, outputCtx := none, mediaStream := none, tracks := [],
    nextStartTime := 0, sources := [], session := none, videoInterval := none,
    isConnected := false, volume := 0 }

/-- What one `onmessage` invocation produced: the new state, the chunks it
scheduled, the chunks it stopped, and whether a decode rejection escaped the
handler (there is no try/catch in the source). -/
structure StepResult where
  state : HookState
  scheduled : List Chunk
  stopped : List Chunk
  threw : Bool
deriving DecidableEq

/-- Lines 151-156 of `useGeminiLive.ts`: on `interrupted`, stop every source
in the active set, clear the set and reset `nextStartTime` to 0. -/
def handleInterrupt (msg : Message) (st : HookState) (sched : List Chunk) : StepResult :=
  if msg.interrupted then
    { state := { st with sources := [], nextStartTime := 0 },
      scheduled := sched, stopped := st.sources, threw := false }
  else
    { state := st, scheduled := sched, stopped := [], threw := false }

/-- Lines 128-157 of `useGeminiLive.ts`: the inbound message handler.  When
an inline audio payload is present (a non-empty base64 string is truthy) and
the output context exists, the cursor is first clamped to the clock, the
payload decoded, the chunk scheduled at the cursor, the cursor advanced by
its duration and the chunk added to the active set; a decode failure escapes
the `async` handler, skipping the interruption check of the same message. -/
def onmessage (now : ℚ) (msg : Message) (st : HookState) : StepResult :=
  match msg.audio, st.outputCtx with
  | some bytes, some _ =>
      if bytes.isEmpty then handleInterrupt msg st []
      else
        let st1 : HookState := { st with nextStartTime := max st.nextStartTime now }
        match decodeAudioData bytes with
        | Except.error _ => { state := st1, scheduled := [], stopped := [], threw := true }
        | Except.ok samples =>
            let c : Chunk := { start := st1.nextStartTime, duration := audioDuration samples }
            let st2 : HookState :=
              { st1 with nextStartTime := st1.nextStartTime + c.duration,
                         sources := st1.sources ++ [c] }
            handleInterrupt msg st2 [c]
  | _, _ => handleInterrupt msg st []

/-- A sequence of message arrivals, each tagged with the output clock's
current time, processed in order; the scheduled chunks are concatenated. -/
def runMessages : List (ℚ × Message) → HookState → HookState × List Chunk
  | [], st => (st, [])
  | (now, m) :: rest, st =>
      let r := onmessage now m st
      let (st2, cs) := runMessages rest r.state
      (st2, r.scheduled ++ cs)

/-- A message that carries a decodable inline audio payload and no
interruption signal. -/
def goodAudioMsgB (m : Message) : Bool :=
  !m.interrupted &&
    (match m.audio with
     | some b => isOkB (decodeAudioData b)
     | none => false)

/-- Arrival faster than playback: each message arrives no later than the
current `nextStartTime` cursor. -/
def arrivalsFastB : List (ℚ × Message) → HookState → Bool
  | [], _ => true
  | (now, m) :: rest, st =>
      decide (now ≤ st.nextStartTime) && arrivalsFastB rest (onmessage now m st).state

/-- Chunks starting at a given time and thereafter playing back to back. -/
def ChainedFrom : ℚ → List Chunk → Prop
  | _, [] => True
  | t, c :: cs => c.start = t ∧ ChainedFrom (t + c.duration) cs

/-! ## Teardown (`cleanup`, lines 31-63) -/

/-- A JavaScript member access on a possibly-null reference: a `TypeError`
when the reference is null. -/
def jsCall {α : Type} (r : Option α) : Except String α :=
  match r with
  | none => Except.error "TypeError: cannot read properties of null"
  | some v => Except.ok v

/-- MediaStreamTrack.stop(). -/
def stopTrack (t : Track) : Track := { t with stopped := true }

/-- One guarded teardown step of `cleanup`: `if (ref) { ref.close(); ref = null }`.
The call itself is strict in the reference; the guard keeps it off null. -/
def guardedClose {α : Type} (r : Option α) : Except String (Option α) :=
  match r with
  | some _ => (jsCall r).map fun _ => none
  | none => Except.ok none

/-- The guarded media-stream step of `cleanup`: stop every track of the held
stream, then drop the reference. -/
def guardedStopTracks (stream : Option Unit) (tracks : List Track) :
    Except String (Option Unit × List Track) :=
  match stream with
  | some _ => (jsCall stream).map fun _ => (none, tracks.map stopTrack)
  | none => Except.ok (stream, tracks)

/-- Lines 31-63 of `useGeminiLive.ts`: `cleanup` — cancel the video timer,
close the session, stop and clear the active sources, stop the hardware
tracks, close both audio contexts, reset the UI state.  Every step is
guarded, so no null reference is ever dereferenced. -/
def cleanup (s : HookState) : Except String HookState := do
  let vid ← guardedClose s.videoInterval
  let sess ← guardedClose s.session
  let (stream, tracks) ← guardedStopTracks s.mediaStream s.tracks
  let ictx ← guardedClose s.inputCtx
  let octx ← guardedClose s.outputCtx
  pure { s with videoInterval := vid, session := sess, sources := [],
                mediaStream := stream, tracks := tracks,
                inputCtx := ictx, outputCtx := octx,
                isConnected := false, volume := 0 }

/-- The state `cleanup` reaches (it never fails, see `cleanup_never_fails`). -/
def cleanupTotal (s : HookState) : HookState :=
  { s with videoInterval := none, session := none, sources := [],
           mediaStream := none,
           tracks := match s.mediaStream with
                     | some _ => s.tracks.map stopTrack
                     | none => s.tracks,
           inputCtx := none, outputCtx := none,
           isConnected := false, volume := 0 }

/-! ## Connection setup (`connect`, lines 65-181) -/

/-- The externally visible events of one `connect` attempt, in program
order: the microphone permission prompt, the error callback (`onError`),
the `cleanup()` call of the catch block, and a successful open. -/
inductive ConnectEvent
  | permissionRequested
  | errorSurfaced (msg : String)
  | resourcesReleased
  | sessionOpened
deriving DecidableEq

/-- Whether some release of resources happens strictly before an error is
surfaced in an event trace. -/
def releasedBeforeSurfaced : List ConnectEvent → Bool
  | [] => false
  | ConnectEvent.resourcesReleased :: rest =>
      rest.any fun e =>
        match e with
        | ConnectEvent.errorSurfaced _ => true
        | _ => false
  | _ :: rest => releasedBeforeSurfaced rest

/-- Lines 65-181 of `useGeminiLive.ts`: `connect`.  The three failure causes
are inputs: a missing credential throws before anything is acquired; then
both audio contexts are created; then the microphone permission is requested
and the stream stored; then the remote handshake is awaited and the session
stored.  Any throw lands in the catch block, which surfaces the error
(`setError` / `onError`) and only then calls `cleanup()`. -/
def connect (hasKey permissionGranted handshakeOk : Bool) (s : HookState) :
    HookState × List ConnectEvent :=
  if !hasKey then
    (cleanupTotal s,
     [ConnectEvent.errorSurfaced "API Key is missing", ConnectEvent.resourcesReleased])
  else
    let s1 : HookState := { s with inputCtx := some (), outputCtx := some () }
    if !permissionGranted then
      (cleanupTotal s1,
       [ConnectEvent.permissionRequested,
        ConnectEvent.errorSurfaced "Permission denied", ConnectEvent.resourcesReleased])
    else
      let s2 : HookState := { s1 with mediaStream := some (),
                                      tracks := s1.tracks ++ [{ stopped := false }] }
      if !handshakeOk then
        (cleanupTotal s2,
         [ConnectEvent.permissionRequested,
          ConnectEvent.errorSurfaced "Failed to start session",
          ConnectEvent.resourcesReleased])
      else
        ({ s2 with session := some (), isConnected := true, videoInterval := some 0 },
         [ConnectEvent.permissionRequested, ConnectEvent.sessionOpened])

/-! ## Outbound text (`sendMessage`, lines 212-218) -/

/-- An outbound payload on the open channel: `{ content: { parts: [{ text }] } }`. -/
inductive Outbound
  | content (parts : List String)
deriving DecidableEq

/-- Lines 212-218 of `useGeminiLive.ts`: `sendMessage` forwards one inline
text payload when a session is open and does nothing otherwise. -/
def sendMessage (text : String) (s : HookState) : HookState × List Outbound :=
  match s.session with
  | some _ => (s, [Outbound.content [text]])
  | none => (s, [])

/-! ## Mode registry and mode switch (`ControlPanel.tsx`, `App.tsx`) -/

/-- The `AppMode` enum of `src/types.ts`. -/
inductive AppMode
  | IDLE
  | NARRATION
  | OBJECT_FINDER
  | DOCUMENT_READER
  | TASK_GUIDANCE
  | WALKING_ASSIST
deriving DecidableEq

/-- The string value of each `AppMode` enum member. -/
def modeKey : AppMode → String
  | AppMode.IDLE => "IDLE"
  | AppMode.NARRATION => "NARRATION"
  | AppMode.OBJECT_FINDER => "OBJECT_FINDER"
  | AppMode.DOCUMENT_READER => "DOCUMENT_READER"
  | AppMode.TASK_GUIDANCE => "TASK_GUIDANCE"
  | AppMode.WALKING_ASSIST => "WALKING_ASSIST"

/-- One entry of the mode registry (`ModeConfig` of `src/types.ts`, without
the purely visual fields). -/
structure ModeConfig where
  mode : AppMode
  label : String
  systemInstruction : String
deriving DecidableEq

/-- The `MODES` table of `src/components/ControlPanel.tsx`. -/
def MODES : List ModeConfig :=
  [{ mode := AppMode.NARRATION,
     label := "Scene Narration",
     systemInstruction := "You are in Scene Narration Mode. Continuously and concisely describe what you see in the video feed. Mention safety hazards like obstacles, stairs, or traffic immediately." },
   { mode := AppMode.WALKING_ASSIST,
     label := "Walking Assist",
     systemInstruction := "CRITICAL SAFETY MODE. You are a real-time navigation guide for a blind pedestrian. Your ONLY priority is preventing collisions and falls. \n1. IMMEDIATE FRONTAL OBSTACLES: Prioritize detecting half-open doors, glass panels, poles, wires, or overhanging objects (head/chest level) directly in front. \n2. GROUND HAZARDS: Scan the floor for obstacles, toys, uneven pavement, stairs (up/down), or wet spots. \n3. DYNAMIC THREATS: Warn of approaching people, vehicles, or animals. \n4. COMMUNICATION PROTOCOL: \n   - IMPACT IMMINENT (< 1m): Shout 'STOP! [Obstacle]'. \n   - CAUTION (< 3m): Say 'Caution, [Obstacle] ahead'. \n   - DIRECTIONAL: Use clock-face (e.g., 'Bench at 2 o'clock') for things not directly in path. \n   - CLEAR PATH: If walking and safe, briefly say 'Path clear' every 10 seconds. \n5. Be concise. Do not describe scene aesthetics." },
   { mode := AppMode.OBJECT_FINDER,
     label := "Object Finder",
     systemInstruction := "You are in Object Finder Mode. The user will state an object they are looking for. Your goal is to find it in the video feed. If you see it, give specific directions like 'It is slightly to the left', 'Move forward', 'It is right in front of you'. If you don't see it, ask the user to pan the camera slowly. Be concise and directive." },
   { mode := AppMode.DOCUMENT_READER,
     label := "Document Reader",
     systemInstruction := "You are in Document Reader Mode. When a document is visible, read the text aloud. Summarize headers first, then read details if asked. Be precise with numbers and dates." },
   { mode := AppMode.TASK_GUIDANCE,
     label := "Task Guidance",
     systemInstruction := "You are in Task Guidance Mode. Ask the user what task they need help with (e.g., 'Make Tea'). Then break it down into small steps, verifying each step visually before moving on." }]

/-- Lines 114-116 of `ControlPanel.tsx`: look the instruction string up in
the registry. -/
def getSystemInstructionForMode (m : AppMode) : Option String :=
  (MODES.find? fun c => c.mode == m).map fun c => c.systemInstruction

/-- Lines 106-115 of `App.tsx`: on a mode switch, send one text notification
through the session when connected and an instruction exists (JavaScript
truthiness: an empty instruction would also be skipped); the send itself
goes through `sendMessage` and its session guard. -/
def handleModeChange (connected : Bool) (newMode : AppMode) (s : HookState) :
    HookState × List Outbound :=
  match getSystemInstructionForMode newMode with
  | some instr =>
      if connected && !(instr == "") then
        sendMessage ("System Update: User switched to " ++ modeKey newMode ++ ". " ++ instr) s
      else (s, [])
  | none => (s, [])

/-! ## Codec lemmas -/

theorem b64Val_b64Char : ∀ n < 64, b64Val (b64Char n) = n := by decide

theorem b64Char_ne_pad : ∀ n < 64, b64Char n ≠ '=' := by decide

theorem base64Decode_encode :
    ∀ bs : List ℕ, (∀ b ∈ bs, b < 256) → base64Decode (base64Encode bs) = bs := by
  intro bs
  induction bs using base64Encode.induct with
  | case1 => intro; rfl
  | case2 b0 =>
      intro h
      have hb0 := h b0 (by simp)
      simp only [base64Encode, base64Decode, if_true]
      rw [b64Val_b64Char _ (by omega), b64Val_b64Char _ (by omega)]
      simp only [List.cons.injEq, and_true]
      omega
  | case3 b0 b1 =>
      intro h
      have hb0 := h b0 (by simp)
      have hb1 := h b1 (by simp)
      simp only [base64Encode, base64Decode]
      rw [if_neg (b64Char_ne_pad _ (by omega))]
      simp only [if_true]
      rw [b64Val_b64Char _ (by omega), b64Val_b64Char _ (by omega),
          b64Val_b64Char _ (by omega)]
      simp only [List.cons.injEq, and_true]
      omega
  | case4 b0 b1 b2 rest ih =>
      intro h
      have hb0 := h b0 (by simp)
      have hb1 := h b1 (by simp)
      have hb2 := h b2 (by simp)
      have hrest : ∀ b ∈ rest, b < 256 := fun b hb => h b (by simp [hb])
      simp only [base64Encode, base64Decode]
      rw [if_neg (b64Char_ne_pad _ (by omega)), if_neg (b64Char_ne_pad _ (by omega))]
      rw [b64Val_b64Char _ (by omega), b64Val_b64Char _ (by omega),
          b64Val_b64Char _ (by omega), b64Val_b64Char _ (by omega)]
      rw [ih hrest]
      simp only [List.cons.injEq, and_true]
      refine ⟨by omega, by omega, by omega⟩

theorem bytesToInt16_int16ToBytes (n : ℤ) (h1 : -32768 ≤ n) (h2 : n ≤ 32767) :
    bytesToInt16 ((n % 65536).toNat % 256) ((n % 65536).toNat / 256) = n := by
  simp only [bytesToInt16]
  split <;> omega

theorem encSample_lb (s : ℚ) : -32768 ≤ encSample s := le_max_left _ _

theorem encSample_ub (s : ℚ) : encSample s ≤ 32767 :=
  max_le (by norm_num) (min_le_left _ _)

theorem int16ToBytes_lt_256 (n : ℤ) : ∀ b ∈ int16ToBytes n, b < 256 := by
  simp only [int16ToBytes, List.mem_cons, List.not_mem_nil, or_false]
  rintro b (rfl | rfl) <;> omega

theorem samplesToBytes_lt_256 : ∀ xs : List ℚ, ∀ b ∈ samplesToBytes xs, b < 256 := by
  intro xs
  induction xs with
  | nil => simp [samplesToBytes]
  | cons s rest ih =>
      simp only [samplesToBytes, List.mem_append]
      rintro b (hb | hb)
      · exact int16ToBytes_lt_256 _ b hb
      · exact ih b hb

theorem bytesToSamples_samplesToBytes :
    ∀ xs : List ℚ,
      bytesToSamples (samplesToBytes xs) = xs.map fun s => ((encSample s : ℤ) : ℚ) / 32768 := by
  intro xs
  induction xs with
  | nil => rfl
  | cons s rest ih =>
      have hb := bytesToInt16_int16ToBytes (encSample s) (encSample_lb s) (encSample_ub s)
      simp only [samplesToBytes, int16ToBytes, List.cons_append, List.nil_append,
        List.append, bytesToSamples, List.map_cons]
      rw [hb, ih]

theorem encSample_close (s : ℚ) (h1 : -1 ≤ s) (h2 : s ≤ 1) :
    |((encSample s : ℤ) : ℚ) / 32768 - s| ≤ 1 / 32768 := by
  have hx1 : (-32768 : ℚ) ≤ s * 32768 := by linarith
  have hx2 : s * 32768 ≤ 32768 := by linarith
  have hfl : (-32768 : ℤ) ≤ ⌊s * 32768⌋ := by
    exact_mod_cast Int.le_floor.mpr (by exact_mod_cast hx1)
  have hfu : ⌊s * 32768⌋ ≤ 32768 := by
    have := Int.floor_le_floor (α := ℚ) hx2
    simpa using this
  have hmax : encSample s = min 32767 ⌊s * 32768⌋ := by
    unfold encSample
    exact max_eq_right (le_min (by norm_num) hfl)
  rcases le_or_lt ⌊s * 32768⌋ 32767 with hc | hc
  · have he : encSample s = ⌊s * 32768⌋ := by rw [hmax, min_eq_right hc]
    have hle : ((⌊s * 32768⌋ : ℤ) : ℚ) ≤ s * 32768 := Int.floor_le _
    have hgt : s * 32768 - 1 < ((⌊s * 32768⌋ : ℤ) : ℚ) := Int.sub_one_lt_floor _
    rw [he, abs_le]
    constructor <;> [linarith; linarith]
  · have hc2 : ⌊s * 32768⌋ = 32768 := by omega
    have he : encSample s = 32767 := by
      rw [hmax, hc2]
      norm_num
    have hle : ((32768 : ℤ) : ℚ) ≤ s * 32768 := by
      rw [← hc2]
      exact Int.floor_le _
    have hs1 : s = 1 := by
      have : (32768 : ℚ) ≤ s * 32768 := by exact_mod_cast hle
      linarith
    rw [he, hs1, abs_le]
    norm_num

theorem decodePcm_encodePcm (xs : List ℚ) :
    decodePcm (encodePcm xs) = xs.map fun s => ((encSample s : ℤ) : ℚ) / 32768 := by
  unfold decodePcm encodePcm
  rw [base64Decode_encode _ (samplesToBytes_lt_256 xs), bytesToSamples_samplesToBytes]

/-- C9: for every normalized sample buffer with entries in [-1, 1], the codec
round trip `decodePcm (encodePcm x)` — 16-bit signed little-endian PCM plus
the base64 transport text encoding, then decoding back — preserves the
length and differs from the input by at most one quantization step, 1/32768,
per sample. -/
theorem pcm_roundtrip_quantization (xs : List ℚ) (h : ∀ x ∈ xs, -1 ≤ x ∧ x ≤ 1) :
    (decodePcm (encodePcm xs)).length = xs.length ∧
    ∀ i, i < xs.length →
      |(decodePcm (encodePcm xs)).getD i 0 - xs.getD i 0| ≤ 1 / 32768 := by
  rw [decodePcm_encodePcm]
  refine ⟨by simp, ?_⟩
  intro i hi
  rw [List.getD_eq_getElem _ _ (by simpa using hi), List.getD_eq_getElem _ _ hi,
    List.getElem_map]
  have hmem : xs[i] ∈ xs := List.getElem_mem hi
  exact encSample_close _ (h _ hmem).1 (h _ hmem).2

/-- C9 witness: the round trip at the concrete buffer [1/2, -1, 1]. -/
theorem pcm_roundtrip_quantization_check :
    (decodePcm (encodePcm [(1 : ℚ)/2, -1, 1])).length = 3 ∧
    ∀ i, i < 3 →
      |(decodePcm (encodePcm [(1 : ℚ)/2, -1, 1])).getD i 0 -
        ([(1 : ℚ)/2, -1, 1].getD i 0)| ≤ 1 / 32768 :=
  pcm_roundtrip_quantization [(1 : ℚ)/2, -1, 1] (by norm_num)

/-! ## Scheduling lemmas -/

theorem decode_ok_nonempty {bytes : List ℕ} {samples : List ℚ}
    (hd : decodeAudioData bytes = Except.ok samples) : bytes.isEmpty = false := by
  unfold decodeAudioData at hd
  split at hd
  · cases hd
  · next h =>
      cases bytes with
      | nil => simp at h
      | cons b rest => rfl

theorem onmessage_audio_ok (now : ℚ) (msg : Message) (st : HookState)
    (bytes : List ℕ) (samples : List ℚ)
    (ha : msg.audio = some bytes) (hi : msg.interrupted = false)
    (hctx : st.outputCtx = some ())
    (hd : decodeAudioData bytes = Except.ok samples) :
    onmessage now msg st =
      ⟨{ st with
           nextStartTime := max st.nextStartTime now + audioDuration samples,
           sources := st.sources ++ [⟨max st.nextStartTime now, audioDuration samples⟩] },
       [⟨max st.nextStartTime now, audioDuration samples⟩], [], false⟩ := by
  have hne := decode_ok_nonempty hd
  simp [onmessage, ha, hctx, hne, hd, handleInterrupt, hi]

theorem goodAudioMsg_spec (m : Message) (h : goodAudioMsgB m = true) :
    m.interrupted = false ∧
    ∃ bytes samples, m.audio = some bytes ∧ decodeAudioData bytes = Except.ok samples := by
  unfold goodAudioMsgB at h
  rw [Bool.and_eq_true] at h
  obtain ⟨h1, h2⟩ := h
  refine ⟨by simpa using h1, ?_⟩
  cases ha : m.audio with
  | none => simp [ha] at h2
  | some bytes =>
      simp only [ha] at h2
      cases hd : decodeAudioData bytes with
      | error e => simp [hd, isOkB] at h2
      | ok samples => exact ⟨bytes, samples, rfl, hd⟩

theorem runMessages_chainedFrom :
    ∀ (ms : List (ℚ × Message)) (st : HookState),
      st.outputCtx = some () →
      (∀ p ∈ ms, goodAudioMsgB p.2 = true) →
      arrivalsFastB ms st = true →
      ChainedFrom st.nextStartTime (runMessages ms st).2 ∧
      (runMessages ms st).2.length = ms.length := by
  intro ms
  induction ms with
  | nil => exact fun st _ _ _ => ⟨trivial, rfl⟩
  | cons p rest ih =>
      obtain ⟨now, m⟩ := p
      intro st hctx hgood hfast
      obtain ⟨hi, bytes, samples, ha, hd⟩ :=
        goodAudioMsg_spec m (hgood (now, m) (List.mem_cons_self _ _))
      rw [arrivalsFastB, Bool.and_eq_true, decide_eq_true_eq] at hfast
      obtain ⟨hnow, hfast2⟩ := hfast
      have hstep := onmessage_audio_ok now m st bytes samples ha hi hctx hd
      have hmax : max st.nextStartTime now = st.nextStartTime := max_eq_left hnow
      rw [hstep] at hfast2
      have ih2 := ih _ (by simp [hctx]) (fun q hq => hgood q (List.mem_cons_of_mem _ hq)) hfast2
      simp only [runMessages, hstep]
      constructor
      · refine ⟨by simp [hmax], ?_⟩
        simpa [hmax] using ih2.1
      · simpa using ih2.2

theorem chainedFrom_chain' :
    ∀ (cs : List Chunk) (t : ℚ), ChainedFrom t cs →
      List.Chain' (fun a b => b.start = a.start + a.duration) cs := by
  intro cs
  induction cs with
  | nil => intro t _; simp
  | cons a rest ih =>
      intro t h
      obtain ⟨ha, hrest⟩ := h
      cases rest with
      | nil => simp
      | cons b rest2 =>
          rw [List.chain'_cons]
          refine ⟨?_, ih _ hrest⟩
          have hb : b.start = t + a.duration := hrest.1
          rw [hb, ha]

/-- C1: for a sequence of inbound messages carrying decodable inline audio
payloads, with no interruption signal, arriving no later than the current
`nextStartTime` cursor, every message schedules exactly one chunk and
consecutive chunks play back to back: chunk i+1's start time is chunk i's
start time plus chunk i's duration — no gap and no overlap. -/
theorem audio_chunks_back_to_back (ms : List (ℚ × Message)) (st : HookState)
    (hctx : st.outputCtx = some ())
    (hgood : ∀ p ∈ ms, goodAudioMsgB p.2 = true)
    (hfast : arrivalsFastB ms st = true) :
    (runMessages ms st).2.length = ms.length ∧
    List.Chain' (fun a b => b.start = a.start + a.duration) (runMessages ms st).2 :=
  have h := runMessages_chainedFrom ms st hctx hgood hfast
  ⟨h.2, chainedFrom_chain' _ _ h.1⟩

/-- C1 witness: two audio messages of one and two samples arriving at clock
time 0 are scheduled back to back. -/
theorem audio_chunks_back_to_back_check :
    (runMessages [((0 : ℚ), { audio := some [0, 0], interrupted := false }),
                  ((0 : ℚ), { audio := some [16, 0, 32, 0], interrupted := false })]
        { initState with outputCtx := some () }).2.length = 2 ∧
    List.Chain' (fun a b => b.start = a.start + a.duration)
      (runMessages [((0 : ℚ), { audio := some [0, 0], interrupted := false }),
                    ((0 : ℚ), { audio := some [16, 0, 32, 0], interrupted := false })]
          { initState with outputCtx := some () }).2 :=
  audio_chunks_back_to_back _ _ rfl (by decide)
    (by simp [arrivalsFastB, onmessage, initState, decodeAudioData, handleInterrupt,
          audioDuration, bytesToSamples, bytesToInt16])

/-! ## Interruption handling -/

/-- C2 counterexample: a message that carries the `interrupted` flag together
with a malformed (odd-length) audio payload.  The decode rejection escapes
the handler before the interruption check runs, so the active set stays
non-empty and the cursor stays non-zero — the claimed invariant fails for
this interrupted message. -/
theorem interruption_invariant_fails_on_malformed_audio :
    ({ audio := some [7], interrupted := true } : Message).interrupted = true ∧
    ¬((onmessage 2 { audio := some [7], interrupted := true }
          { initState with outputCtx := some (),
                           sources := [{ start := 0, duration := 1 }],
                           nextStartTime := 5 }).state.sources = [] ∧
      (onmessage 2 { audio := some [7], interrupted := true }
          { initState with outputCtx := some (),
                           sources := [{ start := 0, duration := 1 }],
                           nextStartTime := 5 }).state.nextStartTime = 0) := by
  decide

/-- C2 amended: for every state and every message carrying `interrupted`
whose inline audio payload (if any) decodes successfully, after the message
is processed every chunk that was in the active set has been stopped, the
active set is empty and `nextStartTime` is reset to zero (so the cursor for
the next scheduled chunk restarts from time zero of the output clock). -/
theorem interruption_clears_playback (now : ℚ) (msg : Message) (st : HookState)
    (hi : msg.interrupted = true)
    (hdec : ∀ b, msg.audio = some b → isOkB (decodeAudioData b) = true) :
    (onmessage now msg st).state.sources = [] ∧
    (onmessage now msg st).state.nextStartTime = 0 ∧
    ∀ c ∈ st.sources, c ∈ (onmessage now msg st).stopped := by
  cases ha : msg.audio with
  | none => simp [onmessage, ha, handleInterrupt, hi]
  | some bytes =>
      have hok := hdec bytes ha
      cases hctx : st.outputCtx with
      | none => simp [onmessage, ha, hctx, handleInterrupt, hi]
      | some u =>
          cases hd : decodeAudioData bytes with
          | error e => simp [hd, isOkB] at hok
          | ok samples =>
              have hne := decode_ok_nonempty hd
              simp [onmessage, ha, hctx, hne, hd, handleInterrupt, hi, List.mem_append]
              intro c hc
              exact Or.inl hc

/-- C2 witness: an interrupted message with a decodable two-byte payload at a
state with one active chunk and a non-zero cursor. -/
theorem interruption_clears_playback_check :
    (onmessage 1 { audio := some [0, 0], interrupted := true }
        { initState with outputCtx := some (),
                         sources := [{ start := 0, duration := 1 }],
                         nextStartTime := 7 }).state.sources = [] ∧
    (onmessage 1 { audio := some [0, 0], interrupted := true }
        { initState with outputCtx := some (),
                         sources := [{ start := 0, duration := 1 }],
                         nextStartTime := 7 }).state.nextStartTime = 0 ∧
    ∀ c ∈ ({ initState with outputCtx := some (),
                            sources := [{ start := 0, duration := 1 }],
                            nextStartTime := 7 } : HookState).sources,
      c ∈ (onmessage 1 { audio := some [0, 0], interrupted := true }
        { initState with outputCtx := some (),
                         sources := [{ start := 0, duration := 1 }],
                         nextStartTime := 7 }).stopped :=
  interruption_clears_playback 1 _ _ rfl
    (by intro b hb; simp only [Option.some.injEq] at hb; subst hb; decide)

/-- C10 counterexample: a message carrying both an inline audio payload and
the `interrupted` flag, where the payload is malformed.  Nothing is
scheduled, the interruption handling is skipped, and the cursor does not end
at zero, contradicting the claimed postcondition for every such message. -/
theorem audio_plus_interrupt_claim_fails :
    (onmessage 1 { audio := some [1, 2, 3], interrupted := true }
        { initState with outputCtx := some (), nextStartTime := 3 }).state.nextStartTime ≠ 0 := by
  decide

/-- C10 amended: for a message carrying both a decodable inline audio payload
and the `interrupted` flag, the chunk is first scheduled (entering the active
set) and then stopped by the interruption handling of the same step: the
scheduled chunk appears among the stopped ones, and afterwards the active set
is empty and `nextStartTime` is zero. -/
theorem interrupt_message_audio_stopped_same_step (now : ℚ) (st : HookState)
    (bytes : List ℕ) (samples : List ℚ)
    (hctx : st.outputCtx = some ())
    (hd : decodeAudioData bytes = Except.ok samples) :
    (onmessage now { audio := some bytes, interrupted := true } st).scheduled =
      [{ start := max st.nextStartTime now, duration := audioDuration samples }] ∧
    ({ start := max st.nextStartTime now, duration := audioDuration samples } : Chunk) ∈
      (onmessage now { audio := some bytes, interrupted := true } st).stopped ∧
    (onmessage now { audio := some bytes, interrupted := true } st).state.sources = [] ∧
    (onmessage now { audio := some bytes, interrupted := true } st).state.nextStartTime = 0 := by
  have hne := decode_ok_nonempty hd
  simp [onmessage, hctx, hne, hd, handleInterrupt, List.mem_append]

/-- C10 witness: the amended property at a concrete two-byte payload. -/
theorem interrupt_message_audio_stopped_same_step_check :
    (onmessage 2 { audio := some [0, 0], interrupted := true }
        { initState with outputCtx := some () }).scheduled =
      [{ start := max ({ initState with outputCtx := some () } : HookState).nextStartTime 2,
         duration := audioDuration (bytesToSamples [0, 0]) }] ∧
    ({ start := max ({ initState with outputCtx := some () } : HookState).nextStartTime 2,
       duration := audioDuration (bytesToSamples [0, 0]) } : Chunk) ∈
      (onmessage 2 { audio := some [0, 0], interrupted := true }
        { initState with outputCtx := some () }).stopped ∧
    (onmessage 2 { audio := some [0, 0], interrupted := true }
        { initState with outputCtx := some () }).state.sources = [] ∧
    (onmessage 2 { audio := some [0, 0], interrupted := true }
        { initState with outputCtx := some () }).state.nextStartTime = 0 :=
  interrupt_message_audio_stopped_same_step 2 _ [0, 0] (bytesToSamples [0, 0]) rfl rfl

/-- C7: at the failing input — a message whose audio payload has odd byte
length — the decode rejection escapes the handler uncaught (`threw`), the
chunk is dropped without being scheduled, the session state survives, and a
subsequent well-formed chunk is still scheduled; but nothing catches or logs
the error inside the handler, contrary to the per-chunk handling the
specification requires. -/
theorem decode_error_escapes_uncaught :
    (onmessage 0 { audio := some [9, 9, 9], interrupted := false }
        { initState with outputCtx := some (),
                         sources := [{ start := 0, duration := 2 }] }).threw = true ∧
    (onmessage 0 { audio := some [9, 9, 9], interrupted := false }
        { initState with outputCtx := some (),
                         sources := [{ start := 0, duration := 2 }] }).scheduled = [] ∧
    (onmessage 0 { audio := some [9, 9, 9], interrupted := false }
        { initState with outputCtx := some (),
                         sources := [{ start := 0, duration := 2 }] }).state.sources =
      [{ start := 0, duration := 2 }] ∧
    (onmessage 0 { audio := some [0, 0], interrupted := false }
        (onmessage 0 { audio := some [9, 9, 9], interrupted := false }
          { initState with outputCtx := some (),
                           sources := [{ start := 0, duration := 2 }] }).state).scheduled ≠ [] := by
  decide

/-! ## Teardown lemmas -/

theorem cleanup_never_fails (s : HookState) : cleanup s = Except.ok (cleanupTotal s) := by
  cases h1 : s.videoInterval <;> cases h2 : s.session <;> cases h3 : s.mediaStream <;>
    cases h4 : s.inputCtx <;> cases h5 : s.outputCtx <;>
    simp [cleanup, cleanupTotal, guardedClose, guardedStopTracks, jsCall,
      h1, h2, h3, h4, h5, Except.map, bind, Except.bind, pure, Except.pure]

theorem cleanupTotal_idem (s : HookState) : cleanupTotal (cleanupTotal s) = cleanupTotal s := by
  simp [cleanupTotal]

theorem cleanupTotal_tracks_stopped (s : HookState)
    (h : s.mediaStream = none → ∀ t ∈ s.tracks, t.stopped = true) :
    ∀ t ∈ (cleanupTotal s).tracks, t.stopped = true := by
  cases hm : s.mediaStream with
  | none => simpa [cleanupTotal, hm] using h hm
  | some u =>
      simp only [cleanupTotal, hm, List.mem_map]
      rintro t ⟨a, _, rfl⟩
      rfl

/-- C3: `cleanup` (exposed as `disconnect`) never raises — every teardown
step is guarded against a missing resource, so it also succeeds from a state
where no session was ever opened — it is idempotent, and afterwards the
session reference is cleared, the active-playback set is empty, the
video-sampling timer is cancelled, every reference is released and all
hardware tracks are stopped (given that unreleased live tracks only exist
while the stream reference is held, as in every reachable state). -/
theorem cleanup_idempotent_and_safe (s : HookState)
    (h : s.mediaStream = none → ∀ t ∈ s.tracks, t.stopped = true) :
    ∃ s2, cleanup s = Except.ok s2 ∧ cleanup s2 = Except.ok s2 ∧
      s2.session = none ∧ s2.sources = [] ∧ s2.videoInterval = none ∧
      s2.mediaStream = none ∧ s2.inputCtx = none ∧ s2.outputCtx = none ∧
      ∀ t ∈ s2.tracks, t.stopped = true := by
  refine ⟨cleanupTotal s, cleanup_never_fails s, ?_, rfl, rfl, rfl, rfl, rfl, rfl,
    cleanupTotal_tracks_stopped s h⟩
  rw [cleanup_never_fails, cleanupTotal_idem]

/-- C3 witness: teardown from a fully-populated state (held stream with a
live track, open session, running timer, open contexts, scheduled chunk). -/
theorem cleanup_idempotent_and_safe_check :
    ∃ s2, cleanup { initState with mediaStream := some (),
                                   tracks := [{ stopped := false }],
                                   session := some (), videoInterval := some 5,
                                   inputCtx := some (), outputCtx := some (),
                                   sources := [{ start := 0, duration := 1 }] } =
        Except.ok s2 ∧
      cleanup s2 = Except.ok s2 ∧
      s2.session = none ∧ s2.sources = [] ∧ s2.videoInterval = none ∧
      s2.mediaStream = none ∧ s2.inputCtx = none ∧ s2.outputCtx = none ∧
      ∀ t ∈ s2.tracks, t.stopped = true :=
  cleanup_idempotent_and_safe _ (by intro hm; simp at hm)

/-! ## Connection failure handling -/

/-- C4 counterexample: in a failing connect attempt (missing credential), the
catch block surfaces the error through the error callback first and calls
`cleanup()` only afterwards — no release event precedes the surfacing event,
so resources are not released before the error is surfaced. -/
theorem connect_failure_surfaces_before_release :
    (connect false true true initState).2 =
      [ConnectEvent.errorSurfaced "API Key is missing", ConnectEvent.resourcesReleased] ∧
    releasedBeforeSurfaced (connect false true true initState).2 = false :=
  ⟨rfl, rfl⟩

/-- C4 amended: for every failing connect attempt (missing credential,
permission denied, or handshake rejection), all partially-acquired resources
— audio contexts, media stream and hardware tracks — are released
immediately after (not before) the error is surfaced through the error
callback: the event trace ends with the surfacing followed by the release,
and the final state holds no open context, stream, session or live track. -/
theorem connect_failure_releases_resources (hasKey perm hs : Bool) (s : HookState)
    (hfail : hasKey = false ∨ perm = false ∨ hs = false)
    (h : s.mediaStream = none → ∀ t ∈ s.tracks, t.stopped = true) :
    (∃ pre msg, (connect hasKey perm hs s).2 =
        pre ++ [ConnectEvent.errorSurfaced msg, ConnectEvent.resourcesReleased]) ∧
    (connect hasKey perm hs s).1.inputCtx = none ∧
    (connect hasKey perm hs s).1.outputCtx = none ∧
    (connect hasKey perm hs s).1.mediaStream = none ∧
    (connect hasKey perm hs s).1.session = none ∧
    ∀ t ∈ (connect hasKey perm hs s).1.tracks, t.stopped = true := by
  cases hasKey with
  | false =>
      refine ⟨⟨[], "API Key is missing", rfl⟩, rfl, rfl, rfl, rfl, ?_⟩
      exact cleanupTotal_tracks_stopped s h
  | true =>
      cases perm with
      | false =>
          refine ⟨⟨[ConnectEvent.permissionRequested], "Permission denied", rfl⟩,
            rfl, rfl, rfl, rfl, ?_⟩
          exact cleanupTotal_tracks_stopped _ (by simpa using h)
      | true =>
          cases hs with
          | false =>
              refine ⟨⟨[ConnectEvent.permissionRequested], "Failed to start session", rfl⟩,
                rfl, rfl, rfl, rfl, ?_⟩
              exact cleanupTotal_tracks_stopped _ (by intro hm; simp at hm)
          | true => simp at hfail

/-- C4 witness: the amended property at the missing-credential attempt from
the initial state. -/
theorem connect_failure_releases_resources_check :
    (∃ pre msg, (connect false true true initState).2 =
        pre ++ [ConnectEvent.errorSurfaced msg, ConnectEvent.resourcesReleased]) ∧
    (connect false true true initState).1.inputCtx = none ∧
    (connect false true true initState).1.outputCtx = none ∧
    (connect false true true initState).1.mediaStream = none ∧
    (connect false true true initState).1.session = none ∧
    ∀ t ∈ (connect false true true initState).1.tracks, t.stopped = true :=
  connect_failure_releases_resources false true true initState (Or.inl rfl)
    (by intro _; simp [initState])

/-- C5: a connect attempt with no API credential fails with the connection
error surfaced, never requests microphone permission, stores no media
stream, leaves no audio context open and leaves every hardware track
stopped. -/
theorem connect_missing_key_no_hardware (perm hs : Bool) (s : HookState)
    (h : s.mediaStream = none → ∀ t ∈ s.tracks, t.stopped = true) :
    (connect false perm hs s).2 =
      [ConnectEvent.errorSurfaced "API Key is missing", ConnectEvent.resourcesReleased] ∧
    ConnectEvent.permissionRequested ∉ (connect false perm hs s).2 ∧
    (connect false perm hs s).1.mediaStream = none ∧
    (connect false perm hs s).1.inputCtx = none ∧
    (connect false perm hs s).1.outputCtx = none ∧
    ∀ t ∈ (connect false perm hs s).1.tracks, t.stopped = true := by
  refine ⟨rfl, ?_, rfl, rfl, rfl, cleanupTotal_tracks_stopped s h⟩
  show ConnectEvent.permissionRequested ∉
    [ConnectEvent.errorSurfaced "API Key is missing", ConnectEvent.resourcesReleased]
  decide

/-- C5 witness: the missing-credential attempt from the initial state. -/
theorem connect_missing_key_no_hardware_check :
    (connect false true true initState).2 =
      [ConnectEvent.errorSurfaced "API Key is missing", ConnectEvent.resourcesReleased] ∧
    ConnectEvent.permissionRequested ∉ (connect false true true initState).2 ∧
    (connect false true true initState).1.mediaStream = none ∧
    (connect false true true initState).1.inputCtx = none ∧
    (connect false true true initState).1.outputCtx = none ∧
    ∀ t ∈ (connect false true true initState).1.tracks, t.stopped = true :=
  connect_missing_key_no_hardware true true initState (by intro _; simp [initState])

/-! ## Outbound text and mode switches -/

/-- C6: `sendMessage` with no open session is a total no-op — it cannot
throw, the state is unchanged and nothing is sent or queued — and with an
open session it forwards exactly one inline text payload containing the
given string. -/
theorem sendMessage_guarded (text : String) (s : HookState) :
    sendMessage text s = (s, if s.session.isSome then [Outbound.content [text]] else []) := by
  cases h : s.session <;> simp [sendMessage, h]

theorem registry_instructions_nonempty : ∀ c ∈ MODES, c.systemInstruction ≠ "" := by
  decide

/-- C8: a mode switch while connected (session open) sends exactly one text
notification, whose content is the fixed prefix followed by the new mode's
instruction string from the registry; a mode switch while disconnected sends
nothing. -/
theorem mode_switch_notification (m : AppMode) (instr : String) (s : HookState)
    (hlook : getSystemInstructionForMode m = some instr)
    (hsess : s.session = some ()) :
    (handleModeChange true m s).2 =
      [Outbound.content ["System Update: User switched to " ++ modeKey m ++ ". " ++ instr]] ∧
    (handleModeChange false m s).2 = [] := by
  have hmem : ∃ c, (MODES.find? fun c => c.mode == m) = some c ∧ c.systemInstruction = instr := by
    unfold getSystemInstructionForMode at hlook
    cases hf : MODES.find? fun c => c.mode == m with
    | none => rw [hf] at hlook; cases hlook
    | some c =>
        rw [hf] at hlook
        exact ⟨c, rfl, by simpa using hlook⟩
  obtain ⟨c, hf, hinstr⟩ := hmem
  have hne : instr ≠ "" := by
    rw [← hinstr]
    exact registry_instructions_nonempty c (List.mem_of_find?_eq_some hf)
  have hneb : (instr == "") = false := by
    simpa using hne
  constructor
  · simp [handleModeChange, hlook, hneb, sendMessage, hsess]
  · simp [handleModeChange, hlook]

/-- C8 witness: switching to Scene Narration with an open session sends the
one notification with its instruction; switching while disconnected sends
nothing. -/
theorem mode_switch_notification_check :
    (handleModeChange true AppMode.NARRATION { initState with session := some () }).2 =
      [Outbound.content ["System Update: User switched to " ++ modeKey AppMode.NARRATION ++
        ". " ++ "You are in Scene Narration Mode. Continuously and concisely describe what you see in the video feed. Mention safety hazards like obstacles, stairs, or traffic immediately."]] ∧
    (handleModeChange false AppMode.NARRATION { initState with session := some () }).2 = [] :=
  mode_switch_notification AppMode.NARRATION _ _ rfl rfl

end SenseBridge
